import Mathlib

/-!
Verification of the TCP chat server in `src/main.cpp`.

The server keeps a `std::list<Client>` registry (`clients`), an `fd_set`
of watched descriptors (`master_set`), the listening descriptor
(`server_socket`) and the current select bound (`max_fd`).  We embed the
registry as a `List Client` in insertion order (`emplace_back` appends,
`remove_if` filters), the `fd_set` as a duplicate-free `List Int`, and
descriptors as `Int` (C `int`).

Side effects on the network (calls to `send`, `shutdown`, `close`) are
returned as a list of `Effect` values in program order; standard-output
logging is not part of the contract and is omitted, except that the
outcome of each broadcast `send` is abstracted by an oracle
`fail : Int → Bool` (true means the send returned a logged error), which
lets us state that broadcast delivery is independent of per-recipient
failures, exactly as in the source where the result `sent` is only
inspected for logging.

The operations `handle_new_connection`, `handle_client_data`,
`register_client`, `remove_client`, `broadcast`, `nickname_exists`,
`find_client` and `send_welcome` are translated one-to-one from the
corresponding member functions of `ChatServer`.  The `recv` call with
count `buffer.size() - 1` is embedded by `recvChunk`, which per the POSIX
contract hands over at most `BUFFER_SIZE - 1` bytes of the peer's pending
stream; `readChunks` iterates it.
-/

namespace TCPChat

/-- `Client` of `src/main.cpp` (line 35): a socket descriptor and a nickname. -/
structure Client where
  socket : Int
  nickname : String
deriving DecidableEq

/-- One externally visible action of the server, in program order:
a `send` of a payload to a socket, a `shutdown(SHUT_RDWR)` followed by
`close` (the disconnect path, lines 184-185), or a bare `close`
(the failed-prompt path, line 217). -/
inductive Effect where
  | send (socket : Int) (message : String)
  | shutdownClose (socket : Int)
  | close (socket : Int)
deriving DecidableEq

/-- The mutable state of `ChatServer`: registry, watched `fd_set`,
listening socket and select bound (lines 42-46). -/
structure ServerState where
  clients : List Client
  master_set : List Int
  server_socket : Int
  max_fd : Int
deriving DecidableEq

/-- Line 18: `constexpr size_t BUFFER_SIZE = 1024`. -/
def BUFFER_SIZE : Nat := 1024

/-- `FD_SET`: add a descriptor to the watched set (sets are duplicate-free). -/
def fd_set_add (set : List Int) (fd : Int) : List Int :=
  if fd ∈ set then set else set ++ [fd]

/-- `FD_CLR`: drop a descriptor from the watched set. -/
def fd_clr (set : List Int) (fd : Int) : List Int :=
  set.filter (fun f => f != fd)

/-- `ChatServer::find_client` (lines 125-128): first registry entry with the
given socket, if any. -/
def find_client (clients : List Client) (socket : Int) : Option Client :=
  clients.find? (fun c => c.socket == socket)

/-- `ChatServer::nickname_exists` (lines 130-132): `any_of` over the registry
comparing nicknames for exact equality. -/
def nickname_exists (clients : List Client) (nickname : String) : Bool :=
  clients.any (fun c => c.nickname == nickname)

/-- `ChatServer::broadcast` (lines 114-123): walk the registry in order,
skip the sender, attempt one `send` per remaining client.  The first
component lists the send attempts `(socket, payload)`; the second lists
the error-log lines, one per recipient whose send failed according to the
oracle `fail` (abstracting `sent < 0 && errno != EPIPE`).  The loop body
never breaks, throws, or mutates the registry. -/
def broadcast (fail : Int → Bool) (clients : List Client) (sender_fd : Int)
    (message : String) : List (Int × String) × List String :=
  match clients with
  | [] => ([], [])
  | c :: rest =>
    let tail := broadcast fail rest sender_fd message
    if c.socket != sender_fd then
      ((c.socket, message) :: tail.1,
       (if fail c.socket then ["broadcast send failed"] else []) ++ tail.2)
    else tail

/-- The fold step of `send_welcome`'s `fold_left` (lines 140-145):
comma-join accumulator. -/
def joinStep (acc : String) (nick : String) : String :=
  if acc.isEmpty then nick else acc ++ ", " ++ nick

/-- The `online_users` string of `ChatServer::send_welcome` (lines 135-146):
fold the nicknames of the other named clients, in registry order. -/
def online_users (clients : List Client) (socket : Int) : String :=
  ((clients.filter (fun c => c.socket != socket && !c.nickname.isEmpty)).map
    Client.nickname).foldl joinStep ""

/-- The `count` of `ChatServer::send_welcome` (lines 148-150): `count_if`
of the other named clients. -/
def online_count (clients : List Client) (socket : Int) : Nat :=
  clients.countP (fun c => c.socket != socket && !c.nickname.isEmpty)

/-- The welcome payload of `ChatServer::send_welcome` (lines 152-154). -/
def send_welcome_msg (clients : List Client) (socket : Int) : String :=
  if online_count clients socket = 0 then
    "🎉 Welcome! You are the only user here.\r\n"
  else
    "🎉 Welcome! " ++ toString (online_count clients socket) ++
      " users online.\r\n👥 Users: " ++ online_users clients socket ++ "\r\n"

/-- `ChatServer::register_client` (lines 161-174): reject on nickname
collision with only an error send; otherwise `emplace_back` the entry,
send the welcome (computed on the updated registry), and broadcast the
join notice. -/
def register_client (fail : Int → Bool) (clients : List Client) (socket : Int)
    (nickname : String) : List Client × List Effect :=
  if nickname_exists clients nickname then
    (clients, [Effect.send socket "❌ Nickname taken, choose another:\r\n> "])
  else
    let clients' := clients ++ [{ socket := socket, nickname := nickname }]
    let joinSends :=
      (broadcast fail clients' socket ("👋 " ++ nickname ++ " joined the chat\r\n")).1
    (clients',
     Effect.send socket (send_welcome_msg clients' socket) ::
       joinSends.map (fun p => Effect.send p.1 p.2))

/-- The leave notice formatted in `ChatServer::remove_client`
(lines 178-179), with its `"unknown"` placeholder for an empty nickname. -/
def leave_notice (c : Client) : String :=
  "👋 " ++ (if c.nickname.isEmpty then "unknown" else c.nickname) ++ " left the chat\r\n"

/-- The `max_fd` rescan of `ChatServer::remove_client` (lines 190-193):
start from `server_socket` and take the maximum over the REGISTRY entries
(the loop ranges over `clients`, not over the watched set). -/
def recompute_max (server_socket : Int) (clients : List Client) : Int :=
  clients.foldl (fun m c => if c.socket > m then c.socket else m) server_socket

/-- `ChatServer::remove_client` (lines 176-196).  The entire body is guarded
by `find_client`: when the socket has no registry entry nothing happens at
all.  Otherwise: broadcast the leave notice, `shutdown` + `close`,
`FD_CLR`, `remove_if` from the registry, and rescan `max_fd` if the
removed socket was the bound. -/
def remove_client (fail : Int → Bool) (s : ServerState) (socket : Int) :
    ServerState × List Effect :=
  match find_client s.clients socket with
  | none => (s, [])
  | some c =>
    let sends := (broadcast fail s.clients socket (leave_notice c)).1
    let clients' := s.clients.filter (fun cl => cl.socket != socket)
    let master' := fd_clr s.master_set socket
    let max' :=
      if socket == s.max_fd then recompute_max s.server_socket clients' else s.max_fd
    ({ s with clients := clients', master_set := master', max_fd := max' },
     sends.map (fun p => Effect.send p.1 p.2) ++ [Effect.shutdownClose socket])

/-- `ChatServer::handle_new_connection` (lines 198-220), with the `accept`
result passed in: a negative descriptor is the logged accept failure
(no state change); otherwise `FD_SET`, bump `max_fd`, send the nickname
prompt, and on prompt-send failure (`promptOk = false`) `close` + `FD_CLR`
(note: `max_fd` is not restored on that path, as in the source). -/
def handle_new_connection (s : ServerState) (new_socket : Int) (promptOk : Bool) :
    ServerState × List Effect :=
  if new_socket < 0 then (s, [])
  else
    let master' := fd_set_add s.master_set new_socket
    let max' := if new_socket > s.max_fd then new_socket else s.max_fd
    if promptOk then
      ({ s with master_set := master', max_fd := max' },
       [Effect.send new_socket "👋 Enter nickname:\r\n> "])
    else
      ({ s with master_set := fd_clr master' new_socket, max_fd := max' },
       [Effect.send new_socket "👋 Enter nickname:\r\n> ", Effect.close new_socket])

/-- `c == '\r' || c == '\n'`: the character class of `find_first_of("\r\n")`
(line 244). -/
def isTerminator (c : Char) : Bool :=
  c == '\r' || c == '\n'

/-- `message.find_first_of("\r\n")` (line 244): index of the first
line-terminator character, `none` for `npos`. -/
def find_first_of (chunk : List Char) : Option Nat :=
  match chunk with
  | [] => none
  | c :: rest =>
    if isTerminator c then some 0 else (find_first_of rest).map (fun i => i + 1)

/-- Lines 244-247: `substr(0, end_pos)` at the first terminator, the whole
chunk when there is none. -/
def extractLine (chunk : List Char) : List Char :=
  match find_first_of chunk with
  | some i => chunk.take i
  | none => chunk

/-- `ChatServer::handle_client_data` (lines 222-260), with the `recv`
result passed in: `none` is a read error, `some []` is a zero-byte read
(both call `remove_client`); otherwise truncate at the first terminator,
ignore an empty line, and dispatch: registration for a socket without a
registry entry, chat broadcast for a registered one. -/
def handle_client_data (fail : Int → Bool) (s : ServerState) (socket : Int)
    (recvRes : Option (List Char)) : ServerState × List Effect :=
  match recvRes with
  | none => remove_client fail s socket
  | some chunk =>
    if chunk.isEmpty then remove_client fail s socket
    else
      let message := extractLine chunk
      if message.isEmpty then (s, [])
      else
        match find_client s.clients socket with
        | none =>
          let r := register_client fail s.clients socket (String.mk message)
          ({ s with clients := r.1 }, r.2)
        | some c =>
          let msg := "💬 " ++ c.nickname ++ ": " ++ String.mk message ++ "\r\n"
          (s, ((broadcast fail s.clients socket msg).1).map
                (fun p => Effect.send p.1 p.2))

/-- One readiness event of the main loop (lines 69-77): either the
listening socket is ready (`accept`, with its outcome and the prompt-send
outcome), or a client socket is ready (`recv`, with its outcome). -/
inductive Op where
  | accept (new_socket : Int) (promptOk : Bool)
  | clientData (socket : Int) (recvRes : Option (List Char))

/-- State transition of one readiness event. -/
def step (fail : Int → Bool) (s : ServerState) (op : Op) : ServerState :=
  match op with
  | Op.accept fd ok => (handle_new_connection s fd ok).1
  | Op.clientData fd r => (handle_client_data fail s fd r).1

/-- The state after `setup_server` (lines 107-109): empty registry,
`FD_ZERO` then `FD_SET(server_socket)`, `max_fd = server_socket`. -/
def initState (srv : Int) : ServerState :=
  { clients := [], master_set := [srv], server_socket := srv, max_fd := srv }

/-- Run a sequence of readiness events from a state. -/
def run (fail : Int → Bool) (s : ServerState) (ops : List Op) : ServerState :=
  ops.foldl (step fail) s

/-- The `recv(socket, buffer.data(), buffer.size() - 1, 0)` call (line 224):
per the POSIX `recv` contract a single read hands over at most
`BUFFER_SIZE - 1` bytes of the peer's pending stream. -/
def recvChunk (pending : List Char) : List Char :=
  pending.take (BUFFER_SIZE - 1)

/-- Repeated reads of a pending stream: each readiness event consumes one
`recvChunk` and the remainder waits for the next event. -/
def readChunks (pending : List Char) : List (List Char) :=
  match pending with
  | [] => []
  | c :: rest =>
    recvChunk (c :: rest) :: readChunks ((c :: rest).drop (BUFFER_SIZE - 1))
termination_by pending.length
decreasing_by
  simp [List.length_drop, BUFFER_SIZE]
  omega

/-- The all-sends-succeed oracle, used to instantiate concrete runs. -/
def fail0 : Int → Bool := fun _ => false

/-- Helper for stating what the welcome fold produces: the tail of a
comma-joined list, each element preceded by `", "`. -/
def joinTail : List String → String
  | [] => ""
  | n :: ns => ", " ++ n ++ joinTail ns

/-- Spec-side rendering of "comma-joined, insertion order": the list of
nicknames separated by `", "`.  Stated from the spec's words, to be
compared with the `fold_left` of `send_welcome`. -/
def commaJoin : List String → String
  | [] => ""
  | [n] => n
  | n :: m :: ns => n ++ ", " ++ commaJoin (m :: ns)

/-- Invariant: no two registry entries carry the same nickname. -/
def NicksDistinct (cs : List Client) : Prop :=
  cs.Pairwise (fun a b => a.nickname ≠ b.nickname)

/-- Invariant: every registry entry carries a non-empty nickname. -/
def NicksNonEmpty (cs : List Client) : Prop :=
  ∀ c ∈ cs, c.nickname ≠ ""

lemma isEmpty_false_of_ne {s : String} (h : s ≠ "") : s.isEmpty = false :=
  Bool.eq_false_iff.mpr (fun hx => h ((String.isEmpty_iff s).mp hx))

lemma append_comma_ne_empty (a b : String) : a ++ ", " ++ b ≠ "" := by
  intro h
  have hd : (a ++ ", " ++ b).data = ("" : String).data := congrArg String.data h
  rw [String.data_append, String.data_append] at hd
  have h2 : (", " : String).data = [',', ' '] := rfl
  have h3 : ("" : String).data = [] := rfl
  rw [h2, h3] at hd
  simp at hd

lemma string_mk_ne_empty {m : List Char} (h : m ≠ []) : String.mk m ≠ "" := by
  intro he
  exact h (congrArg String.data he)

lemma joinStep_of_ne {acc : String} (n : String) (h : acc ≠ "") :
    joinStep acc n = acc ++ ", " ++ n := by
  unfold joinStep
  rw [isEmpty_false_of_ne h]
  simp

lemma foldl_joinStep_acc (ns : List String) (acc : String) (h : acc ≠ "") :
    ns.foldl joinStep acc = acc ++ joinTail ns := by
  induction ns generalizing acc with
  | nil => simp [joinTail, String.append_empty]
  | cons n ns ih =>
    rw [List.foldl_cons, joinStep_of_ne n h, ih _ (append_comma_ne_empty acc n), joinTail]
    simp [String.append_assoc]

lemma commaJoin_cons (n : String) (ns : List String) :
    commaJoin (n :: ns) = n ++ joinTail ns := by
  induction ns generalizing n with
  | nil => simp [commaJoin, joinTail, String.append_empty]
  | cons m ns ih =>
    rw [commaJoin, ih m, joinTail]
    simp [String.append_assoc]

lemma foldl_joinStep_eq_commaJoin (ns : List String) (h : ∀ n ∈ ns, n ≠ "") :
    ns.foldl joinStep "" = commaJoin ns := by
  cases ns with
  | nil => rfl
  | cons n ns =>
    rw [List.foldl_cons]
    have h1 : joinStep "" n = n := rfl
    rw [h1, foldl_joinStep_acc ns n (h n (by simp)), commaJoin_cons]

lemma nickname_exists_false_iff (cs : List Client) (n : String) :
    nickname_exists cs n = false ↔ ∀ c ∈ cs, c.nickname ≠ n := by
  rw [Bool.eq_false_iff]
  simp [nickname_exists, List.any_eq_true]

lemma nickname_exists_true_iff (cs : List Client) (n : String) :
    nickname_exists cs n = true ↔ ∃ c ∈ cs, c.nickname = n := by
  simp [nickname_exists, List.any_eq_true]

lemma find_client_none_iff (cs : List Client) (sock : Int) :
    find_client cs sock = none ↔ ∀ c ∈ cs, c.socket ≠ sock := by
  simp [find_client, List.find?_eq_none]

lemma find_client_some_socket {cs : List Client} {sock : Int} {c : Client}
    (h : find_client cs sock = some c) : c.socket = sock := by
  have := List.find?_some h
  simpa using this

lemma find_client_some_mem {cs : List Client} {sock : Int} {c : Client}
    (h : find_client cs sock = some c) : c ∈ cs :=
  List.mem_of_find?_eq_some h

lemma broadcast_sends (fail : Int → Bool) (cs : List Client) (sender : Int) (m : String) :
    (broadcast fail cs sender m).1 =
      (cs.filter (fun c => c.socket != sender)).map (fun c => (c.socket, m)) := by
  induction cs with
  | nil => rfl
  | cons c rest ih =>
    rw [broadcast, List.filter_cons]
    by_cases h : (c.socket != sender) = true
    · simp only [h, if_true]
      simp [ih]
    · simp only [h, if_false]
      simp only [Bool.not_eq_true] at h
      simp [h, ih]

lemma online_users_eq (clients : List Client) (socket : Int) :
    online_users clients socket =
      commaJoin ((clients.filter
        (fun c => c.socket != socket && !c.nickname.isEmpty)).map Client.nickname) := by
  apply foldl_joinStep_eq_commaJoin
  intro n hn
  simp only [List.mem_map, List.mem_filter] at hn
  obtain ⟨c, ⟨_, hpred⟩, hne⟩ := hn
  subst hne
  have h2 : (!c.nickname.isEmpty) = true := (Bool.and_eq_true _ _ |>.mp hpred).2
  intro he
  have h3 : c.nickname.isEmpty = true := (String.isEmpty_iff _).mpr he
  rw [h3] at h2
  simp at h2

lemma online_count_eq (clients : List Client) (socket : Int) :
    online_count clients socket =
      (clients.filter (fun c => c.socket != socket && !c.nickname.isEmpty)).length := by
  simp [online_count, List.countP_eq_length_filter]

lemma extractLine_nil : extractLine [] = [] := rfl

lemma extractLine_cons_pos {c : Char} (rest : List Char) (h : isTerminator c = true) :
    extractLine (c :: rest) = [] := by
  unfold extractLine find_first_of
  rw [h]
  simp

lemma find_first_of_cons (c : Char) (rest : List Char) :
    find_first_of (c :: rest) =
      if isTerminator c = true then some 0
      else (find_first_of rest).map (fun i => i + 1) := rfl

lemma extractLine_cons_neg {c : Char} (rest : List Char) (h : isTerminator c = false) :
    extractLine (c :: rest) = c :: extractLine rest := by
  cases hf : find_first_of rest with
  | none =>
    have l1 : extractLine (c :: rest) = c :: rest := by
      unfold extractLine
      rw [find_first_of_cons, h]
      simp [hf]
    have l2 : extractLine rest = rest := by
      unfold extractLine
      rw [hf]
    rw [l1, l2]
  | some i =>
    have l1 : extractLine (c :: rest) = (c :: rest).take (i + 1) := by
      unfold extractLine
      rw [find_first_of_cons, h]
      simp [hf]
    have l2 : extractLine rest = rest.take i := by
      unfold extractLine
      rw [hf]
    rw [l1, l2, List.take_succ_cons]

lemma extractLine_eq_takeWhile (chunk : List Char) :
    extractLine chunk = chunk.takeWhile (fun c => !isTerminator c) := by
  induction chunk with
  | nil => rfl
  | cons c rest ih =>
    by_cases h : isTerminator c = true
    · rw [extractLine_cons_pos rest h, List.takeWhile_cons]
      simp [h]
    · rw [Bool.not_eq_true] at h
      rw [extractLine_cons_neg rest h, List.takeWhile_cons]
      simp [h, ih]

lemma head_dropWhile_terminator (chunk : List Char) (ch : Char)
    (h : (chunk.dropWhile (fun c => !isTerminator c)).head? = some ch) :
    isTerminator ch = true := by
  induction chunk with
  | nil => simp [List.dropWhile] at h
  | cons c rest ih =>
    by_cases hc : isTerminator c = true
    · rw [List.dropWhile_cons] at h
      simp only [hc, Bool.not_true, Bool.false_eq_true, if_false, List.head?_cons] at h
      rw [← Option.some_inj.mp h]
      exact hc
    · rw [Bool.not_eq_true] at hc
      rw [List.dropWhile_cons] at h
      simp only [hc, Bool.not_false, if_true] at h
      exact ih h

lemma hnc_clients (s : ServerState) (fd : Int) (ok : Bool) :
    ((handle_new_connection s fd ok).1).clients = s.clients := by
  unfold handle_new_connection
  split
  · rfl
  · split <;> (split <;> rfl)

lemma register_client_clients (fail : Int → Bool) (cs : List Client) (sock : Int)
    (nick : String) :
    (register_client fail cs sock nick).1 = cs ∨
      (nickname_exists cs nick = false ∧
       (register_client fail cs sock nick).1 = cs ++ [⟨sock, nick⟩]) := by
  unfold register_client
  by_cases h : nickname_exists cs nick = true
  · left
    simp [h]
  · right
    rw [Bool.not_eq_true] at h
    simp [h]

lemma remove_client_clients (fail : Int → Bool) (s : ServerState) (sock : Int) :
    ((remove_client fail s sock).1).clients = s.clients ∨
      ((remove_client fail s sock).1).clients =
        s.clients.filter (fun cl => cl.socket != sock) := by
  unfold remove_client
  cases hf : find_client s.clients sock with
  | none => left; rfl
  | some c => right; rfl

lemma handle_client_data_none (fail : Int → Bool) (s : ServerState) (sock : Int) :
    handle_client_data fail s sock none = remove_client fail s sock := rfl

lemma handle_client_data_some (fail : Int → Bool) (s : ServerState) (sock : Int)
    (chunk : List Char) :
    handle_client_data fail s sock (some chunk) =
      if chunk.isEmpty then remove_client fail s sock
      else
        if (extractLine chunk).isEmpty then (s, [])
        else
          match find_client s.clients sock with
          | none =>
            ({ s with clients :=
                (register_client fail s.clients sock (String.mk (extractLine chunk))).1 },
             (register_client fail s.clients sock (String.mk (extractLine chunk))).2)
          | some c =>
            (s, ((broadcast fail s.clients sock
                  ("💬 " ++ c.nickname ++ ": " ++ String.mk (extractLine chunk) ++ "\r\n")).1).map
                  (fun p => Effect.send p.1 p.2)) := rfl

lemma hcd_clients (fail : Int → Bool) (s : ServerState) (sock : Int)
    (r : Option (List Char)) :
    ((handle_client_data fail s sock r).1).clients = s.clients ∨
    ((handle_client_data fail s sock r).1).clients =
      s.clients.filter (fun cl => cl.socket != sock) ∨
    (∃ nick, nick ≠ "" ∧ nickname_exists s.clients nick = false ∧
      ((handle_client_data fail s sock r).1).clients = s.clients ++ [⟨sock, nick⟩]) := by
  cases r with
  | none =>
    rw [handle_client_data_none]
    rcases remove_client_clients fail s sock with he | he
    · left; exact he
    · right; left; exact he
  | some chunk =>
    rw [handle_client_data_some]
    by_cases hch : chunk.isEmpty = true
    · rw [hch]
      simp only [if_true]
      rcases remove_client_clients fail s sock with he | he
      · left; exact he
      · right; left; exact he
    · rw [Bool.not_eq_true] at hch
      rw [hch]
      simp only [Bool.false_eq_true, if_false]
      by_cases hl : (extractLine chunk).isEmpty = true
      · left
        rw [hl]
        simp
      · rw [Bool.not_eq_true] at hl
        rw [hl]
        simp only [Bool.false_eq_true, if_false]
        cases hf : find_client s.clients sock with
        | some c =>
          left
          rfl
        | none =>
          rcases register_client_clients fail s.clients sock
              (String.mk (extractLine chunk)) with he | ⟨hex, he⟩
          · left
            exact he
          · right; right
            refine ⟨String.mk (extractLine chunk), ?_, hex, he⟩
            apply string_mk_ne_empty
            intro hnil
            rw [hnil] at hl
            simp at hl

lemma step_run_cons (fail : Int → Bool) (s : ServerState) (op : Op) (ops : List Op) :
    run fail s (op :: ops) = run fail (step fail s op) ops := by
  simp [run, List.foldl_cons]

lemma run_clients_inv (P : List Client → Prop) (fail : Int → Bool)
    (hfil : ∀ cs (sock : Int), P cs → P (cs.filter (fun cl => cl.socket != sock)))
    (hadd : ∀ cs (sock : Int) (nick : String), nick ≠ "" →
      nickname_exists cs nick = false → P cs → P (cs ++ [⟨sock, nick⟩])) :
    ∀ (ops : List Op) (s : ServerState), P s.clients → P (run fail s ops).clients := by
  intro ops
  induction ops with
  | nil => intro s h; exact h
  | cons op ops ih =>
    intro s h
    rw [step_run_cons]
    apply ih
    cases op with
    | accept fd ok =>
      show P ((handle_new_connection s fd ok).1).clients
      rw [hnc_clients]
      exact h
    | clientData sock r =>
      show P ((handle_client_data fail s sock r).1).clients
      rcases hcd_clients fail s sock r with he | he | ⟨nick, hne, hex, he⟩
      · rw [he]; exact h
      · rw [he]; exact hfil _ _ h
      · rw [he]; exact hadd _ _ _ hne hex h

lemma nicksDistinct_unique {cs : List Client} (h : NicksDistinct cs) :
    ∀ a ∈ cs, ∀ b ∈ cs, a.nickname = b.nickname → a = b := by
  induction cs with
  | nil => intro a ha; cases ha
  | cons x xs ih =>
    rw [NicksDistinct, List.pairwise_cons] at h
    intro a ha b hb heq
    rcases List.mem_cons.mp ha with rfl | ha' <;>
      rcases List.mem_cons.mp hb with rfl | hb'
    · rfl
    · exact absurd heq (h.1 b hb')
    · exact absurd heq.symm (h.1 a ha')
    · exact ih h.2 a ha' b hb' heq

/-- C2: in every state reachable by any sequence of accept, register,
broadcast and disconnect events, no two simultaneously-registered Clients
hold the same non-empty nickname (case-sensitive exact match), and a
colliding registration is always rejected with only the rejection send,
never silently overwriting an existing entry. -/
theorem reachable_nicknames_distinct (fail : Int → Bool) (srv : Int) (ops : List Op) :
    ((run fail (initState srv) ops).clients.Pairwise
      (fun a b => ¬(a.nickname = b.nickname ∧ a.nickname ≠ ""))) ∧
    (∀ cs (sock : Int) (nick : String), nickname_exists cs nick = true →
      (register_client fail cs sock nick).1 = cs ∧
      (register_client fail cs sock nick).2 =
        [Effect.send sock "❌ Nickname taken, choose another:\r\n> "]) := by
  constructor
  · have hd : NicksDistinct (run fail (initState srv) ops).clients := by
      apply run_clients_inv NicksDistinct fail
      · intro cs sock h
        exact List.Pairwise.sublist (List.filter_sublist cs) h
      · intro cs sock nick hne hex h
        rw [NicksDistinct, List.pairwise_append]
        refine ⟨h, List.pairwise_singleton _ _, ?_⟩
        intro a ha b hb
        simp only [List.mem_singleton] at hb
        subst hb
        exact (nickname_exists_false_iff cs nick).mp hex a ha
      · exact List.Pairwise.nil
    exact hd.imp (fun hne hcon => hne hcon.1)
  · intro cs sock nick hex
    unfold register_client
    rw [hex]
    simp

/-- C9: in every reachable state every Registry entry has a non-empty
nickname (registration is only dispatched on a non-empty line), so the
leave notice of an entry that exists in the Registry never takes the
"unknown" placeholder branch. -/
theorem reachable_nicknames_nonempty (fail : Int → Bool) (srv : Int) (ops : List Op) :
    (∀ c ∈ (run fail (initState srv) ops).clients, c.nickname ≠ "") ∧
    (∀ (sock : Int) (c : Client),
      find_client (run fail (initState srv) ops).clients sock = some c →
      leave_notice c = "👋 " ++ c.nickname ++ " left the chat\r\n") := by
  have h1 : NicksNonEmpty (run fail (initState srv) ops).clients := by
    apply run_clients_inv NicksNonEmpty fail
    · intro cs sock h c hc
      exact h c (List.mem_of_mem_filter hc)
    · intro cs sock nick hne hex h c hc
      rcases List.mem_append.mp hc with h' | h'
      · exact h c h'
      · simp only [List.mem_singleton] at h'
        subst h'
        exact hne
    · intro c hc
      cases hc
  refine ⟨h1, ?_⟩
  intro sock c hf
  have hn : c.nickname ≠ "" := h1 c (find_client_some_mem hf)
  unfold leave_notice
  rw [isEmpty_false_of_ne hn]
  simp

/-- C2 witness: a concrete reachable state and a concrete rejected
collision. -/
theorem reachable_nicknames_distinct_witness :
    ((run fail0 (initState 3) [Op.accept 4 true]).clients.Pairwise
      (fun a b => ¬(a.nickname = b.nickname ∧ a.nickname ≠ ""))) ∧
    (register_client fail0 [⟨4, "alice"⟩] 5 "alice").1 = [⟨4, "alice"⟩] ∧
    (register_client fail0 [⟨4, "alice"⟩] 5 "alice").2 =
      [Effect.send 5 "❌ Nickname taken, choose another:\r\n> "] :=
  ⟨(reachable_nicknames_distinct fail0 3 [Op.accept 4 true]).1,
   ((reachable_nicknames_distinct fail0 3 [Op.accept 4 true]).2 [⟨4, "alice"⟩] 5 "alice"
      (by decide)).1,
   ((reachable_nicknames_distinct fail0 3 [Op.accept 4 true]).2 [⟨4, "alice"⟩] 5 "alice"
      (by decide)).2⟩

/-- C9 witness: in the reachable state where socket 4 registered as
"ann", the entry is non-empty and its leave notice uses the nickname. -/
theorem reachable_nicknames_nonempty_witness :
    (⟨4, "ann"⟩ : Client).nickname ≠ "" ∧
    leave_notice ⟨4, "ann"⟩ =
      "👋 " ++ (⟨4, "ann"⟩ : Client).nickname ++ " left the chat\r\n" :=
  ⟨(reachable_nicknames_nonempty fail0 3
      [Op.accept 4 true, Op.clientData 4 (some ['a', 'n', 'n'])]).1
      ⟨4, "ann"⟩ (by decide),
   (reachable_nicknames_nonempty fail0 3
      [Op.accept 4 true, Op.clientData 4 (some ['a', 'n', 'n'])]).2
      4 ⟨4, "ann"⟩ (by decide)⟩

/-- C4: a chat line from a registered client leaves the whole server state
unchanged, and the broadcast attempts one verbatim send to exactly the
clients other than the sender, in registry (insertion) order; the sender
is never a recipient, and the outcome of the per-recipient sends (the
`fail` oracle) influences neither the delivery list nor the state — a
failing recipient neither aborts the remaining deliveries nor is removed. -/
theorem broadcast_delivery (fail fail' : Int → Bool) (s : ServerState) (sock : Int)
    (chunk : List Char) (c : Client)
    (hfind : find_client s.clients sock = some c)
    (hline : extractLine chunk ≠ []) :
    (handle_client_data fail s sock (some chunk)).1 = s ∧
    (handle_client_data fail s sock (some chunk)).2 =
      (s.clients.filter (fun cl => cl.socket != sock)).map
        (fun cl => Effect.send cl.socket
          ("💬 " ++ c.nickname ++ ": " ++ String.mk (extractLine chunk) ++ "\r\n")) ∧
    (∀ m : String, Effect.send sock m ∉ (handle_client_data fail s sock (some chunk)).2) ∧
    handle_client_data fail' s sock (some chunk) =
      handle_client_data fail s sock (some chunk) := by
  have hch : chunk.isEmpty = false := by
    rw [Bool.eq_false_iff]
    intro hx
    rw [List.isEmpty_iff.mp hx] at hline
    exact hline rfl
  have hl : (extractLine chunk).isEmpty = false := by
    rw [Bool.eq_false_iff]
    intro hx
    exact hline (List.isEmpty_iff.mp hx)
  have hred : ∀ f : Int → Bool, handle_client_data f s sock (some chunk) =
      (s, ((broadcast f s.clients sock
            ("💬 " ++ c.nickname ++ ": " ++ String.mk (extractLine chunk) ++ "\r\n")).1).map
            (fun p => Effect.send p.1 p.2)) := by
    intro f
    rw [handle_client_data_some, hch, hl]
    simp only [Bool.false_eq_true, if_false]
    rw [hfind]
  refine ⟨?_, ?_, ?_, ?_⟩
  · rw [hred fail]
  · rw [hred fail]
    simp only
    rw [broadcast_sends, List.map_map]
    rfl
  · intro m hm
    rw [hred fail] at hm
    simp only at hm
    rw [broadcast_sends, List.map_map] at hm
    rcases List.mem_map.mp hm with ⟨cl, hcl, he⟩
    rcases List.mem_filter.mp hcl with ⟨_, hpred⟩
    have hne : cl.socket ≠ sock := by
      intro hx
      rw [hx] at hpred
      simp at hpred
    apply hne
    have := congrArg (fun e => match e with
      | Effect.send t _ => t
      | Effect.shutdownClose t => t
      | Effect.close t => t) he
    simpa using this
  · rw [hred fail, hred fail', broadcast_sends, broadcast_sends]

/-- C4 witness: concrete two-client registry; the chat line of socket 4
is delivered only to socket 5, verbatim, with unchanged state, for any
send outcome. -/
theorem broadcast_delivery_witness :
    (handle_client_data fail0
      { clients := [⟨4, "alice"⟩, ⟨5, "bob"⟩], master_set := [3, 4, 5],
        server_socket := 3, max_fd := 5 } 4 (some ['h', 'i'])).1 =
      { clients := [⟨4, "alice"⟩, ⟨5, "bob"⟩], master_set := [3, 4, 5],
        server_socket := 3, max_fd := 5 } ∧
    (handle_client_data fail0
      { clients := [⟨4, "alice"⟩, ⟨5, "bob"⟩], master_set := [3, 4, 5],
        server_socket := 3, max_fd := 5 } 4 (some ['h', 'i'])).2 =
      (([⟨4, "alice"⟩, ⟨5, "bob"⟩] : List Client).filter
        (fun cl => cl.socket != 4)).map
        (fun cl => Effect.send cl.socket
          ("💬 " ++ ("alice" : String) ++ ": " ++ String.mk (extractLine ['h', 'i']) ++ "\r\n")) := by
  have h := broadcast_delivery fail0 fail0
    { clients := [⟨4, "alice"⟩, ⟨5, "bob"⟩], master_set := [3, 4, 5],
      server_socket := 3, max_fd := 5 } 4 ['h', 'i'] ⟨4, "alice"⟩ (by decide) (by decide)
  exact ⟨h.1, h.2.1⟩

/-- C5: for every non-empty received chunk, the dispatched line is the
chunk truncated at the first `\r` or `\n`: the line concatenated with the
dropped remainder reproduces the chunk, the line itself contains no
terminator, the first dropped character (if any) is a terminator, and an
empty resulting line is silently ignored (state unchanged, no effect). -/
theorem line_framing (fail : Int → Bool) (s : ServerState) (sock : Int)
    (chunk : List Char) (hc : chunk ≠ []) :
    extractLine chunk ++ chunk.dropWhile (fun ch => !isTerminator ch) = chunk ∧
    (∀ ch ∈ extractLine chunk, isTerminator ch = false) ∧
    (∀ ch : Char, (chunk.dropWhile (fun ch' => !isTerminator ch')).head? = some ch →
      isTerminator ch = true) ∧
    (extractLine chunk = [] → handle_client_data fail s sock (some chunk) = (s, [])) := by
  refine ⟨?_, ?_, ?_, ?_⟩
  · rw [extractLine_eq_takeWhile]
    exact List.takeWhile_append_dropWhile _ _
  · intro ch hch
    rw [extractLine_eq_takeWhile] at hch
    have h := List.mem_takeWhile_imp hch
    simpa using h
  · exact head_dropWhile_terminator chunk
  · intro hl
    have hch : chunk.isEmpty = false := by
      rw [Bool.eq_false_iff]
      intro hx
      exact hc (List.isEmpty_iff.mp hx)
    have hlE : (extractLine chunk).isEmpty = true := by
      rw [hl]
      rfl
    rw [handle_client_data_some, hch, hlE]
    simp

/-- C5 witness: the chunk `"\ra"` has an empty first line and is silently
ignored; the chunk `"hi\rx"` is truncated to `"hi"`. -/
theorem line_framing_witness :
    handle_client_data fail0 (initState 3) 4 (some ['\r', 'a']) = (initState 3, []) ∧
    extractLine ['h', 'i', '\r', 'x'] ++
      (['h', 'i', '\r', 'x'].dropWhile (fun ch => !isTerminator ch)) =
      ['h', 'i', '\r', 'x'] :=
  ⟨(line_framing fail0 (initState 3) 4 ['\r', 'a'] (by decide)).2.2.2 (by decide),
   (line_framing fail0 (initState 3) 4 ['h', 'i', '\r', 'x'] (by decide)).1⟩

lemma register_client_success (fail : Int → Bool) (cs : List Client) (sock : Int)
    (nick : String) (h : nickname_exists cs nick = false) :
    register_client fail cs sock nick =
      (cs ++ [⟨sock, nick⟩],
       Effect.send sock (send_welcome_msg (cs ++ [⟨sock, nick⟩]) sock) ::
         ((broadcast fail (cs ++ [⟨sock, nick⟩]) sock
            ("👋 " ++ nick ++ " joined the chat\r\n")).1).map
            (fun p => Effect.send p.1 p.2)) := by
  unfold register_client
  rw [h]
  simp only [Bool.false_eq_true, if_false]

lemma register_client_coll (fail : Int → Bool) (cs : List Client) (sock : Int)
    (nick : String) (h : nickname_exists cs nick = true) :
    register_client fail cs sock nick =
      (cs, [Effect.send sock "❌ Nickname taken, choose another:\r\n> "]) := by
  unfold register_client
  rw [h]
  simp

/-- C6: on every successful registration the first effect is the welcome
send to the joining socket; its reported count is the number of named
clients other than the joiner (still-anonymous peers are not in the
registry, and the empty-nickname filter additionally excludes them), the
listed names are exactly those clients' nicknames comma-joined in
insertion order, and a zero count yields the distinguished "alone"
message, never a "0 users online" message. -/
theorem welcome_message_correct (fail : Int → Bool) (clients : List Client) (sock : Int)
    (nick : String) (h : nickname_exists clients nick = false) :
    (register_client fail clients sock nick).2.head? =
      some (Effect.send sock
        (if (((clients ++ ([⟨sock, nick⟩] : List Client)).filter
              (fun c => c.socket != sock && !c.nickname.isEmpty)).map Client.nickname).length = 0
         then "🎉 Welcome! You are the only user here.\r\n"
         else "🎉 Welcome! " ++
           toString (((clients ++ ([⟨sock, nick⟩] : List Client)).filter
              (fun c => c.socket != sock && !c.nickname.isEmpty)).map Client.nickname).length ++
           " users online.\r\n👥 Users: " ++
           commaJoin (((clients ++ ([⟨sock, nick⟩] : List Client)).filter
              (fun c => c.socket != sock && !c.nickname.isEmpty)).map Client.nickname) ++
           "\r\n")) := by
  rw [register_client_success fail clients sock nick h]
  simp only [List.head?_cons]
  refine congrArg some (congrArg (Effect.send sock) ?_)
  unfold send_welcome_msg
  rw [online_count_eq, online_users_eq, List.length_map]

/-- C6 witness: joining socket 5 as "bob" with "alice" online reports one
user and lists exactly "alice"; joining an empty registry yields the
"alone" message. -/
theorem welcome_message_correct_witness :
    (register_client fail0 [⟨4, "alice"⟩] 5 "bob").2.head? =
      some (Effect.send 5
        (if ((([⟨4, "alice"⟩, ⟨5, "bob"⟩] : List Client).filter
              (fun c => c.socket != 5 && !c.nickname.isEmpty)).map Client.nickname).length = 0
         then "🎉 Welcome! You are the only user here.\r\n"
         else "🎉 Welcome! " ++
           toString ((([⟨4, "alice"⟩, ⟨5, "bob"⟩] : List Client).filter
              (fun c => c.socket != 5 && !c.nickname.isEmpty)).map Client.nickname).length ++
           " users online.\r\n👥 Users: " ++
           commaJoin ((([⟨4, "alice"⟩, ⟨5, "bob"⟩] : List Client).filter
              (fun c => c.socket != 5 && !c.nickname.isEmpty)).map Client.nickname) ++
           "\r\n")) ∧
    (register_client fail0 [] 7 "eve").2.head? =
      some (Effect.send 7 "🎉 Welcome! You are the only user here.\r\n") := by
  constructor
  · exact welcome_message_correct fail0 [⟨4, "alice"⟩] 5 "bob" (by decide)
  · have h := welcome_message_correct fail0 [] 7 "eve" (by decide)
    rw [h]
    rfl

/-- C7: a registration attempt (line dispatched on a connection with no
registry entry) whose candidate nickname exactly matches an existing
Client other than the registering connection itself is rejected with only
the rejection send and no other change: registry, watched-set and bound
are untouched and the connection stays anonymous; otherwise the entry
`{connection, nickname}` is appended, again without touching the
watched-set. -/
theorem registration_collision (fail : Int → Bool) (s : ServerState) (sock : Int)
    (chunk : List Char)
    (hanon : find_client s.clients sock = none)
    (hline : extractLine chunk ≠ []) :
    ((∃ c ∈ s.clients, c.socket ≠ sock ∧ c.nickname = String.mk (extractLine chunk)) →
      handle_client_data fail s sock (some chunk) =
        (s, [Effect.send sock "❌ Nickname taken, choose another:\r\n> "])) ∧
    ((∀ c ∈ s.clients, ¬(c.socket ≠ sock ∧ c.nickname = String.mk (extractLine chunk))) →
      (handle_client_data fail s sock (some chunk)).1.clients =
          s.clients ++ [⟨sock, String.mk (extractLine chunk)⟩] ∧
      (handle_client_data fail s sock (some chunk)).1.master_set = s.master_set ∧
      (handle_client_data fail s sock (some chunk)).1.max_fd = s.max_fd) := by
  have hch : chunk.isEmpty = false := by
    rw [Bool.eq_false_iff]
    intro hx
    rw [List.isEmpty_iff.mp hx] at hline
    exact hline rfl
  have hl : (extractLine chunk).isEmpty = false := by
    rw [Bool.eq_false_iff]
    intro hx
    exact hline (List.isEmpty_iff.mp hx)
  have hsock : ∀ c ∈ s.clients, c.socket ≠ sock := (find_client_none_iff _ _).mp hanon
  have hred : handle_client_data fail s sock (some chunk) =
      ({ s with clients :=
          (register_client fail s.clients sock (String.mk (extractLine chunk))).1 },
       (register_client fail s.clients sock (String.mk (extractLine chunk))).2) := by
    rw [handle_client_data_some, hch, hl]
    simp only [Bool.false_eq_true, if_false]
    rw [hanon]
  constructor
  · intro hcoll
    rcases hcoll with ⟨c, hc, _, heq⟩
    have hex : nickname_exists s.clients (String.mk (extractLine chunk)) = true :=
      (nickname_exists_true_iff _ _).mpr ⟨c, hc, heq⟩
    rw [hred, register_client_coll fail _ _ _ hex]
  · intro hno
    have hex : nickname_exists s.clients (String.mk (extractLine chunk)) = false := by
      rw [nickname_exists_false_iff]
      intro c hc heq
      exact hno c hc ⟨hsock c hc, heq⟩
    rw [hred, register_client_success fail _ _ _ hex]
    exact ⟨rfl, rfl, rfl⟩

/-- C7 witness: socket 5 (anonymous) claiming "alice" while socket 4
holds "alice" is rejected with no state change; claiming "bob" appends
the entry and leaves watched-set and bound alone. -/
theorem registration_collision_witness :
    handle_client_data fail0
      { clients := [⟨4, "alice"⟩], master_set := [3, 4, 5], server_socket := 3, max_fd := 5 }
      5 (some "alice".toList) =
      ({ clients := [⟨4, "alice"⟩], master_set := [3, 4, 5], server_socket := 3, max_fd := 5 },
       [Effect.send 5 "❌ Nickname taken, choose another:\r\n> "]) ∧
    (handle_client_data fail0
      { clients := [⟨4, "alice"⟩], master_set := [3, 4, 5], server_socket := 3, max_fd := 5 }
      5 (some "bob".toList)).1.clients =
      [⟨4, "alice"⟩, ⟨5, String.mk (extractLine "bob".toList)⟩] := by
  constructor
  · exact (registration_collision fail0
      { clients := [⟨4, "alice"⟩], master_set := [3, 4, 5], server_socket := 3, max_fd := 5 }
      5 "alice".toList (by decide) (by decide)).1
      ⟨⟨4, "alice"⟩, by decide, by decide, by decide⟩
  · exact ((registration_collision fail0
      { clients := [⟨4, "alice"⟩], master_set := [3, 4, 5], server_socket := 3, max_fd := 5 }
      5 "bob".toList (by decide) (by decide)).2 (by decide)).1

/-- C8: removing the Client that holds nickname `n` by Disconnect releases
the name: in a registry with pairwise-distinct nicknames, after
`remove_client` on the holder's socket the name no longer exists, and a
subsequent registration of any connection under the identical name
succeeds by inserting the new entry. -/
theorem name_released (fail : Int → Bool) (s : ServerState) (sock : Int) (c : Client)
    (hdist : NicksDistinct s.clients)
    (hfind : find_client s.clients sock = some c) :
    nickname_exists ((remove_client fail s sock).1).clients c.nickname = false ∧
    (∀ sock' : Int,
      (register_client fail ((remove_client fail s sock).1).clients sock' c.nickname).1 =
        ((remove_client fail s sock).1).clients ++ [⟨sock', c.nickname⟩]) := by
  have hclients : ((remove_client fail s sock).1).clients =
      s.clients.filter (fun cl => cl.socket != sock) := by
    unfold remove_client
    rw [hfind]
  have hnone : nickname_exists (s.clients.filter (fun cl => cl.socket != sock))
      c.nickname = false := by
    rw [nickname_exists_false_iff]
    intro cl hcl heq
    rcases List.mem_filter.mp hcl with ⟨hmem, hpred⟩
    have hcc : cl = c := nicksDistinct_unique hdist cl hmem c (find_client_some_mem hfind) heq
    rw [hcc, find_client_some_socket hfind] at hpred
    simp at hpred
  constructor
  · rw [hclients]
    exact hnone
  · intro sock'
    rw [hclients, register_client_success fail _ sock' c.nickname hnone]

/-- C8 witness: removing "alice" (socket 4) releases the name and socket 6
can then register as "alice". -/
theorem name_released_witness :
    nickname_exists ((remove_client fail0
      { clients := [⟨4, "alice"⟩, ⟨5, "bob"⟩], master_set := [3, 4, 5],
        server_socket := 3, max_fd := 5 } 4).1).clients "alice" = false ∧
    (register_client fail0 ((remove_client fail0
      { clients := [⟨4, "alice"⟩, ⟨5, "bob"⟩], master_set := [3, 4, 5],
        server_socket := 3, max_fd := 5 } 4).1).clients 6 "alice").1 =
      ((remove_client fail0
      { clients := [⟨4, "alice"⟩, ⟨5, "bob"⟩], master_set := [3, 4, 5],
        server_socket := 3, max_fd := 5 } 4).1).clients ++ [⟨6, "alice"⟩] := by
  have h := name_released fail0
    { clients := [⟨4, "alice"⟩, ⟨5, "bob"⟩], master_set := [3, 4, 5],
      server_socket := 3, max_fd := 5 } 4 ⟨4, "alice"⟩
    (show NicksDistinct [⟨4, "alice"⟩, ⟨5, "bob"⟩] by unfold NicksDistinct; decide)
    (by decide)
  exact ⟨h.1, h.2 6⟩

lemma readChunks_nil : readChunks [] = [] := by
  rw [readChunks]

lemma readChunks_cons (c : Char) (rest : List Char) :
    readChunks (c :: rest) =
      recvChunk (c :: rest) :: readChunks ((c :: rest).drop (BUFFER_SIZE - 1)) := by
  rw [readChunks]

lemma readChunks_flatten_aux :
    ∀ (n : Nat) (p : List Char), p.length ≤ n → (readChunks p).flatten = p := by
  intro n
  induction n with
  | zero =>
    intro p hp
    rw [List.length_eq_zero.mp (Nat.le_zero.mp hp), readChunks_nil]
    rfl
  | succ n ih =>
    intro p hp
    cases p with
    | nil =>
      rw [readChunks_nil]
      rfl
    | cons c rest =>
      rw [readChunks_cons, List.flatten_cons,
        ih ((c :: rest).drop (BUFFER_SIZE - 1)) ?hle]
      · exact List.take_append_drop _ _
      case hle =>
        rw [List.length_drop]
        simp only [List.length_cons, BUFFER_SIZE] at hp ⊢
        omega

lemma readChunks_bounded_aux :
    ∀ (n : Nat) (p : List Char), p.length ≤ n →
      ∀ ch ∈ readChunks p, ch.length ≤ BUFFER_SIZE - 1 := by
  intro n
  induction n with
  | zero =>
    intro p hp ch hch
    rw [List.length_eq_zero.mp (Nat.le_zero.mp hp), readChunks_nil] at hch
    cases hch
  | succ n ih =>
    intro p hp ch hch
    cases p with
    | nil =>
      rw [readChunks_nil] at hch
      cases hch
    | cons c rest =>
      rw [readChunks_cons] at hch
      rcases List.mem_cons.mp hch with rfl | hch'
      · rw [recvChunk, List.length_take]
        exact min_le_left _ _
      · refine ih ((c :: rest).drop (BUFFER_SIZE - 1)) ?_ ch hch'
        rw [List.length_drop]
        simp only [List.length_cons, BUFFER_SIZE] at hp ⊢
        omega

/-- C10: a single read step hands over at most `BUFFER_SIZE - 1 = 1023`
bytes, so the null-terminator index `bytes` is strictly inside the
1024-byte buffer; iterating reads over a pending stream loses nothing,
keeps every chunk within the bound, and an unterminated input longer than
1023 bytes is split over at least two separate read-and-dispatch steps. -/
theorem read_bounded (pending : List Char) :
    (recvChunk pending).length ≤ BUFFER_SIZE - 1 ∧
    (recvChunk pending).length < BUFFER_SIZE ∧
    (∀ ch ∈ readChunks pending, ch.length ≤ BUFFER_SIZE - 1) ∧
    (readChunks pending).flatten = pending ∧
    (BUFFER_SIZE - 1 < pending.length → 2 ≤ (readChunks pending).length) := by
  have h1 : (recvChunk pending).length ≤ BUFFER_SIZE - 1 := by
    rw [recvChunk, List.length_take]
    exact min_le_left _ _
  refine ⟨h1, lt_of_le_of_lt h1 (by rw [BUFFER_SIZE]; omega), ?_, ?_, ?_⟩
  · exact readChunks_bounded_aux pending.length pending le_rfl
  · exact readChunks_flatten_aux pending.length pending le_rfl
  · intro hlong
    cases pending with
    | nil => simp at hlong
    | cons c rest =>
      rw [readChunks_cons, List.length_cons]
      have hpos : 0 < ((c :: rest).drop (BUFFER_SIZE - 1)).length := by
        rw [List.length_drop]
        simp only [List.length_cons] at hlong ⊢
        omega
      have hne : (c :: rest).drop (BUFFER_SIZE - 1) ≠ [] :=
        List.ne_nil_of_length_pos hpos
      have hrne : readChunks ((c :: rest).drop (BUFFER_SIZE - 1)) ≠ [] := by
        cases hd : (c :: rest).drop (BUFFER_SIZE - 1) with
        | nil => exact absurd hd hne
        | cons d ds =>
          rw [readChunks_cons]
          exact List.cons_ne_nil _ _
      have := List.length_pos.mpr hrne
      omega

/-- C10 witness: a 1030-byte unterminated input is read in bounded chunks
and split over at least two reads. -/
theorem read_bounded_witness :
    (recvChunk (List.replicate 1030 'a')).length ≤ BUFFER_SIZE - 1 ∧
    (readChunks (List.replicate 1030 'a')).flatten = List.replicate 1030 'a' ∧
    2 ≤ (readChunks (List.replicate 1030 'a')).length :=
  ⟨(read_bounded (List.replicate 1030 'a')).1,
   (read_bounded (List.replicate 1030 'a')).2.2.2.1,
   (read_bounded (List.replicate 1030 'a')).2.2.2.2
     (by rw [List.length_replicate]; decide)⟩

/-- C1: evaluation at the failing input.  After accepting socket 4 (which
is therefore in the watched-set but, being still anonymous, has no
Registry entry), a zero-byte read — the Disconnect trigger — leaves the
server completely unchanged: `remove_client`'s whole body is guarded by
the Registry lookup, so the transport is neither shut down nor closed
(no effect is emitted) and the handle stays in the watched-set. -/
theorem anonymous_disconnect_no_cleanup :
    (4 : Int) ∈ (run fail0 (initState 3) [Op.accept 4 true]).master_set ∧
    find_client (run fail0 (initState 3) [Op.accept 4 true]).clients 4 = none ∧
    handle_client_data fail0 (run fail0 (initState 3) [Op.accept 4 true]) 4 (some []) =
      (run fail0 (initState 3) [Op.accept 4 true], []) := by
  decide

/-- C3: evaluation at the failing input.  Sockets 4 ("alice"), 5 (still
anonymous) and 6 ("carol") are accepted; when 6 — the current bound —
disconnects, the rescan ranges over the REGISTRY only, so the recomputed
bound is 4 even though the anonymous handle 5 is still in the
watched-set: the bound is NOT at least every watched handle. -/
theorem max_fd_bound_violated :
    (run fail0 (initState 3)
      [Op.accept 4 true, Op.clientData 4 (some "alice".toList),
       Op.accept 5 true, Op.accept 6 true,
       Op.clientData 6 (some "carol".toList), Op.clientData 6 none]).max_fd = 4 ∧
    (5 : Int) ∈ (run fail0 (initState 3)
      [Op.accept 4 true, Op.clientData 4 (some "alice".toList),
       Op.accept 5 true, Op.accept 6 true,
       Op.clientData 6 (some "carol".toList), Op.clientData 6 none]).master_set ∧
    find_client (run fail0 (initState 3)
      [Op.accept 4 true, Op.clientData 4 (some "alice".toList),
       Op.accept 5 true, Op.accept 6 true,
       Op.clientData 6 (some "carol".toList), Op.clientData 6 none]).clients 5 = none := by
  decide

end TCPChat
